import Mathlib

/-!
Shallow embedding of the girya HTTP load generator (src/main.go).

Modelling conventions:
* `time.Duration` values are nanosecond counts, embedded as `Nat`
  (durations produced by `t2.Sub(t1)` on a monotonic clock are nonnegative).
* Go `int` counters are embedded as `Nat` (they only ever grow from 0 here);
  the HTTP status code field keeps the signed type `Int`.
* The buffered result channel and the goroutines are modelled by an explicit
  stream of measurements consumed by the single collector loop, mirroring the
  single-consumer discipline of the program.
* Go `float64` arithmetic in the statistics functions (`math.Floor` of a
  float division, `math.Sqrt`) is idealized as exact arithmetic over `ℚ`/`ℝ`;
  `standardDeviation` is written with `Nat.sqrt` of a `Nat` division, and the
  theorem `standardDeviation_eq_floor_sqrt` proves this equal to the exact
  floor-of-square-root-of-quotient formula of the source.
* Out-of-range slice indexing (a Go panic) is embedded as an `Option`-valued
  access returning `none`.
-/

namespace Girya

/-- One HTTP probe outcome: struct `measurement` in main.go. -/
structure measurement where
  httpReplySize : Nat
  httpStatusCode : Int
  duration : Nat
deriving DecidableEq

/-- Struct `benchmarkStats` in main.go.  The `resultChannel` field (the
buffered channel carrying measurements) is represented outside the state, as
the stream argument of the run model; timestamps are abstract `Nat` ticks. -/
structure benchmarkStats where
  requestsStarted : Nat
  failedRequests : Nat
  successfulRequests : Nat
  transferredBytes : Nat
  durations : List Nat
  startedAt : Nat
  endedAt : Nat
deriving DecidableEq

/-- `NewBenchmarkStats`: fresh state, counters at their Go zero values,
`startedAt` set to the current time.  `repetitions` and `concurrencyLevel`
only size the slice and the channel in the source, so they do not affect
the abstract state. -/
def NewBenchmarkStats (repetitions concurrencyLevel now : Nat) : benchmarkStats :=
  { requestsStarted := 0
    failedRequests := 0
    successfulRequests := 0
    transferredBytes := 0
    durations := []
    startedAt := now
    endedAt := 0 }

/-- Convenience constructor for a state holding a given latency list,
used to instantiate theorems at concrete inputs. -/
def statsWith (ds : List Nat) : benchmarkStats :=
  { requestsStarted := 0
    failedRequests := 0
    successfulRequests := 0
    transferredBytes := 0
    durations := ds
    startedAt := 0
    endedAt := 0 }

/-- `(bm *benchmarkStats) stop()`: sets `endedAt`. -/
def stop (bm : benchmarkStats) (now : Nat) : benchmarkStats :=
  { bm with endedAt := now }

/-- `(bm *benchmarkStats) recordResult(m)`: classify by status code,
then always add the reply size to the transferred-bytes total. -/
def recordResult (bm : benchmarkStats) (m : measurement) : benchmarkStats :=
  let bm2 :=
    if 200 ≤ m.httpStatusCode ∧ m.httpStatusCode ≤ 299 then
      { bm with successfulRequests := bm.successfulRequests + 1
                durations := bm.durations ++ [m.duration] }
    else
      { bm with failedRequests := bm.failedRequests + 1 }
  { bm2 with transferredBytes := bm2.transferredBytes + m.httpReplySize }

/-- `(bm *benchmarkStats) requestCount()`. -/
def requestCount (bm : benchmarkStats) : Nat :=
  bm.failedRequests + bm.successfulRequests

/-- `(bm *benchmarkStats) totalTime()`: sum of the recorded durations. -/
def totalTime (bm : benchmarkStats) : Nat :=
  bm.durations.foldl (fun sum value => sum + value) 0

/-- `(bm *benchmarkStats) averageRequestDuration()`:
`time.Duration(math.Floor(float64(totalTime) / float64(len(durations))))`,
the float division idealized as exact division in `ℚ`. -/
def averageRequestDuration (bm : benchmarkStats) : Int :=
  ⌊(totalTime bm : ℚ) / (bm.durations.length : ℚ)⌋

/-- `(bm *benchmarkStats) slowestRequestDuration()`: starts from
`durations[0]` (a panic — `none` — on an empty slice) and scans for the
maximum. -/
def slowestRequestDuration (bm : benchmarkStats) : Option Nat :=
  bm.durations[0]?.map
    (fun d0 => bm.durations.foldl (fun mx value => if mx < value then value else mx) d0)

/-- `(bm *benchmarkStats) fastestRequestDuration()`: starts from
`durations[0]` (a panic — `none` — on an empty slice) and scans for the
minimum. -/
def fastestRequestDuration (bm : benchmarkStats) : Option Nat :=
  bm.durations[0]?.map
    (fun d0 => bm.durations.foldl (fun mn value => if mn > value then value else mn) d0)

/-- `(bm *benchmarkStats) medianRequestDuration()`: sorts a copy of the
durations ascending and returns the element at index `length / 2`
(a panic — `none` — when the index is out of bounds). -/
def medianRequestDuration (bm : benchmarkStats) : Option Nat :=
  (List.insertionSort (fun a b => a ≤ b) bm.durations)[bm.durations.length / 2]?

/-- The sum `sumDeltaSquared` accumulated by `standardDeviation` in the
source: squared deviations from the already-floored integer mean. -/
def sumDeltaSquared (bm : benchmarkStats) : Int :=
  let mean := averageRequestDuration bm
  bm.durations.foldl (fun sum value => sum + (mean - (value : Int)) ^ 2) 0

/-- `(bm *benchmarkStats) standardDeviation()`:
`math.Floor(math.Sqrt(sumDeltaSquared / length))` with exact arithmetic;
written with `Nat.sqrt` of the `Nat` division, which
`standardDeviation_eq_floor_sqrt` proves equal to the source's
floor-of-real-square-root of the exact quotient. -/
def standardDeviation (bm : benchmarkStats) : Nat :=
  Nat.sqrt ((sumDeltaSquared bm).toNat / bm.durations.length)

/-- `(bm *benchmarkStats) measureUrl(url)`: increments `requestsStarted` and
launches a probe goroutine; the probe's eventual measurement is delivered by
the stream in the run model. -/
def measureUrl (bm : benchmarkStats) : benchmarkStats :=
  { bm with requestsStarted := bm.requestsStarted + 1 }

/-- An HTTP response as seen by `retrieveUrl`: status, headers (name bytes
paired with the list of value byte-strings, as in Go's
`map[string][]string`), and the result of reading the body (`none` models a
read error). -/
structure httpResponse where
  statusCode : Int
  headers : List (List Nat × List (List Nat))
  bodyRead : Option (List Nat)
deriving DecidableEq

/-- The header size loop of `retrieveUrl`:
`size += len(header) + len(value)` — the length of the header name plus the
NUMBER of entries in the `[]string` value slice. -/
def headerSize (headers : List (List Nat × List (List Nat))) : Nat :=
  headers.foldl (fun size h => size + h.1.length + h.2.length) 0

/-- `retrieveUrl(url)`: the probe.  Its fetch outcome is the argument:
`none` is a total fetch failure, otherwise the response carries the body
read result. -/
def retrieveUrl (fetched : Option httpResponse) : Int × Nat :=
  match fetched with
  | none => (500, 0)
  | some resp =>
    match resp.bodyRead with
    | none => (resp.statusCode, headerSize resp.headers)
    | some body => (resp.statusCode, headerSize resp.headers + body.length)

/-- Modelled from the spec: the spec's reading of `headerBytes` — "the sum,
over every response header, of the combined length of its name and its
value(s)", i.e. name length plus the total byte length of the values.
Defined only to compare against `headerSize`, the source's computation. -/
def headerBytesSpec (headers : List (List Nat × List (List Nat))) : Nat :=
  headers.foldl (fun size h => size + h.1.length + (h.2.map List.length).sum) 0

/-- One iteration of the collector loop in `main`: receive a result, record
it, and start a replacement probe when `requestsStarted < repetitions`. -/
def mainLoopStep (repetitions : Nat) (bm : benchmarkStats) (m : measurement) : benchmarkStats :=
  let bm2 := recordResult bm m
  if bm2.requestsStarted < repetitions then measureUrl bm2 else bm2

/-- The initial loop of `main`: `concurrencyLevel` calls to `measureUrl`. -/
def startPhase (concurrencyLevel : Nat) (bm : benchmarkStats) : benchmarkStats :=
  (List.range concurrencyLevel).foldl (fun b _ => measureUrl b) bm

/-- The state of the run after the start phase and `k` collector-loop
iterations; `stream i` is the i-th measurement drained from the channel. -/
def runAfter (concurrencyLevel repetitions : Nat) (stream : Nat → measurement)
    (now k : Nat) : benchmarkStats :=
  ((List.range k).map stream).foldl (mainLoopStep repetitions)
    (startPhase concurrencyLevel (NewBenchmarkStats repetitions concurrencyLevel now))

/-- The whole benchmark run of `main`: start phase, `repetitions` collector
iterations, then `stop`. -/
def runMain (concurrencyLevel repetitions : Nat) (stream : Nat → measurement)
    (now endNow : Nat) : benchmarkStats :=
  stop (runAfter concurrencyLevel repetitions stream now repetitions) endNow

/-- Calling `medianRequestDuration` as a method: the result paired with the
receiver state, which the method leaves untouched (it sorts only a copy). -/
def medianRequestDurationCall (bm : benchmarkStats) : Option Nat × benchmarkStats :=
  (medianRequestDuration bm, bm)

/-- Calling `averageRequestDuration` as a method: result plus unchanged state. -/
def averageRequestDurationCall (bm : benchmarkStats) : Int × benchmarkStats :=
  (averageRequestDuration bm, bm)

/-- Calling `standardDeviation` as a method: result plus unchanged state. -/
def standardDeviationCall (bm : benchmarkStats) : Nat × benchmarkStats :=
  (standardDeviation bm, bm)

/-! ### Helper lemmas -/

lemma recordResult_requestsStarted (bm : benchmarkStats) (m : measurement) :
    (recordResult bm m).requestsStarted = bm.requestsStarted := by
  simp only [recordResult]
  split <;> rfl

lemma recordResult_counts (bm : benchmarkStats) (m : measurement) :
    (recordResult bm m).successfulRequests + (recordResult bm m).failedRequests
      = bm.successfulRequests + bm.failedRequests + 1 := by
  simp only [recordResult]
  split <;> simp <;> omega

lemma recordResult_durations_length (bm : benchmarkStats) (m : measurement) :
    (recordResult bm m).durations.length + bm.successfulRequests
      = bm.durations.length + (recordResult bm m).successfulRequests := by
  simp only [recordResult]
  split <;> simp <;> omega

lemma mainLoopStep_requestsStarted (r : Nat) (bm : benchmarkStats) (m : measurement) :
    (mainLoopStep r bm m).requestsStarted =
      if bm.requestsStarted < r then bm.requestsStarted + 1 else bm.requestsStarted := by
  by_cases h : bm.requestsStarted < r
  · rw [if_pos h]
    simp only [mainLoopStep]
    rw [if_pos (by rw [recordResult_requestsStarted]; exact h)]
    simp only [measureUrl, recordResult_requestsStarted]
  · rw [if_neg h]
    simp only [mainLoopStep]
    rw [if_neg (by rw [recordResult_requestsStarted]; exact h)]
    exact recordResult_requestsStarted bm m

lemma mainLoopStep_successfulRequests (r : Nat) (bm : benchmarkStats) (m : measurement) :
    (mainLoopStep r bm m).successfulRequests = (recordResult bm m).successfulRequests := by
  simp only [mainLoopStep]
  split <;> rfl

lemma mainLoopStep_failedRequests (r : Nat) (bm : benchmarkStats) (m : measurement) :
    (mainLoopStep r bm m).failedRequests = (recordResult bm m).failedRequests := by
  simp only [mainLoopStep]
  split <;> rfl

lemma mainLoopStep_durations (r : Nat) (bm : benchmarkStats) (m : measurement) :
    (mainLoopStep r bm m).durations = (recordResult bm m).durations := by
  simp only [mainLoopStep]
  split <;> rfl

lemma foldl_measureUrl_requestsStarted (l : List Nat) (bm : benchmarkStats) :
    (l.foldl (fun b _ => measureUrl b) bm).requestsStarted = bm.requestsStarted + l.length := by
  induction l generalizing bm with
  | nil => simp
  | cons a t ih =>
    rw [List.foldl_cons, ih]
    simp only [measureUrl, List.length_cons]
    omega

lemma foldl_measureUrl_frame (l : List Nat) (bm : benchmarkStats) :
    (l.foldl (fun b _ => measureUrl b) bm).successfulRequests = bm.successfulRequests ∧
    (l.foldl (fun b _ => measureUrl b) bm).failedRequests = bm.failedRequests ∧
    (l.foldl (fun b _ => measureUrl b) bm).durations = bm.durations := by
  induction l generalizing bm with
  | nil => exact ⟨rfl, rfl, rfl⟩
  | cons a t ih => simpa using ih (measureUrl bm)

lemma foldl_mainLoopStep_requestsStarted_le (r : Nat) (l : List measurement)
    (bm : benchmarkStats) (h : bm.requestsStarted ≤ r) :
    (l.foldl (mainLoopStep r) bm).requestsStarted ≤ r := by
  induction l generalizing bm with
  | nil => simpa
  | cons a t ih =>
    rw [List.foldl_cons]
    refine ih _ ?_
    rw [mainLoopStep_requestsStarted]
    split <;> omega

lemma foldl_recordResult_counts (l : List measurement) (bm : benchmarkStats) :
    (l.foldl recordResult bm).successfulRequests + (l.foldl recordResult bm).failedRequests
      = bm.successfulRequests + bm.failedRequests + l.length := by
  induction l generalizing bm with
  | nil => simp
  | cons a t ih =>
    rw [List.foldl_cons, ih]
    have h := recordResult_counts bm a
    simp only [List.length_cons]
    omega

lemma foldl_recordResult_durations (l : List measurement) (bm : benchmarkStats) :
    (l.foldl recordResult bm).durations.length + bm.successfulRequests
      = bm.durations.length + (l.foldl recordResult bm).successfulRequests := by
  induction l generalizing bm with
  | nil => simp
  | cons a t ih =>
    rw [List.foldl_cons]
    have h1 := ih (recordResult bm a)
    have h2 := recordResult_durations_length bm a
    omega

lemma foldl_mainLoopStep_counts (r : Nat) (l : List measurement) (bm : benchmarkStats) :
    (l.foldl (mainLoopStep r) bm).successfulRequests + (l.foldl (mainLoopStep r) bm).failedRequests
      = bm.successfulRequests + bm.failedRequests + l.length := by
  induction l generalizing bm with
  | nil => simp
  | cons a t ih =>
    rw [List.foldl_cons, ih]
    have h1 := mainLoopStep_successfulRequests r bm a
    have h2 := mainLoopStep_failedRequests r bm a
    have h3 := recordResult_counts bm a
    simp only [List.length_cons]
    omega

lemma foldl_mainLoopStep_durations (r : Nat) (l : List measurement) (bm : benchmarkStats) :
    (l.foldl (mainLoopStep r) bm).durations.length + bm.successfulRequests
      = bm.durations.length + (l.foldl (mainLoopStep r) bm).successfulRequests := by
  induction l generalizing bm with
  | nil => simp
  | cons a t ih =>
    rw [List.foldl_cons]
    have h1 := ih (mainLoopStep r bm a)
    have h2 := mainLoopStep_successfulRequests r bm a
    have h3 := mainLoopStep_durations r bm a
    have h4 := recordResult_durations_length bm a
    rw [h3] at h1
    omega

lemma averageRequestDuration_eq_div (bm : benchmarkStats) :
    averageRequestDuration bm = ((totalTime bm / bm.durations.length : ℕ) : ℤ) := by
  unfold averageRequestDuration
  rw [← Nat.floor_div_eq_div (α := ℚ) (totalTime bm) bm.durations.length]
  exact (Int.natCast_floor_eq_floor (by positivity)).symm

lemma foldl_add_sq_nonneg (mean : ℤ) (l : List Nat) (s : ℤ) (hs : 0 ≤ s) :
    0 ≤ l.foldl (fun acc value => acc + (mean - (value : Int)) ^ 2) s := by
  induction l generalizing s with
  | nil => simpa
  | cons a t ih => exact ih _ (add_nonneg hs (sq_nonneg _))

lemma sumDeltaSquared_nonneg (bm : benchmarkStats) : 0 ≤ sumDeltaSquared bm :=
  foldl_add_sq_nonneg _ _ _ le_rfl

lemma int_floor_real_sqrt_div (s n : ℕ) :
    ⌊Real.sqrt ((s : ℝ) / (n : ℝ))⌋ = (Nat.sqrt (s / n) : ℤ) := by
  rcases Nat.eq_zero_or_pos n with hn | hn
  · subst hn
    simp
  · rw [Int.floor_eq_iff]
    constructor
    · apply Real.le_sqrt_of_sq_le
      calc ((Nat.sqrt (s / n) : ℤ) : ℝ) ^ 2
          = ((Nat.sqrt (s / n) ^ 2 : ℕ) : ℝ) := by push_cast; ring
        _ ≤ ((s / n : ℕ) : ℝ) := by exact_mod_cast Nat.sqrt_le' (s / n)
        _ ≤ (s : ℝ) / (n : ℝ) := Nat.cast_div_le
    · have hlt : s < (Nat.sqrt (s / n) + 1) ^ 2 * n :=
        (Nat.div_lt_iff_lt_mul hn).1 (Nat.lt_succ_sqrt' (s / n))
      have hn' : (0 : ℝ) < (n : ℝ) := by exact_mod_cast hn
      rw [Real.sqrt_lt' (by positivity)]
      rw [div_lt_iff₀ hn']
      calc (s : ℝ) < (((Nat.sqrt (s / n) + 1) ^ 2 * n : ℕ) : ℝ) := by exact_mod_cast hlt
        _ = (((Nat.sqrt (s / n) : ℤ) : ℝ) + 1) ^ 2 * (n : ℝ) := by push_cast; ring

/-! ### Claims -/

/-- C1, counterexample: with concurrency 2 and repetition budget 1, the start
phase already issues 2 probes, so `requestsStarted` is not `min 2 1 = 1` and
exceeds the budget. -/
theorem dispatcher_min_counterexample :
    (runAfter 2 1 (fun _ => ⟨0, 200, 0⟩) 0 0).requestsStarted = 2 ∧
    ¬ ((runAfter 2 1 (fun _ => ⟨0, 200, 0⟩) 0 0).requestsStarted ≤ 1) ∧
    min 2 1 = 1 := by
  decide

/-- C1, amended: the start phase issues exactly `concurrency` probes (not
`min(concurrency, repetitions)`); whenever `concurrency ≤ repetitions`,
`requestsStarted` never exceeds the budget at any point of the run, and the
collector loop issues a replacement probe exactly when
`requestsStarted < repetitions`. -/
theorem dispatcher_budget (c r now k : Nat) (stream : Nat → measurement) (h : c ≤ r) :
    (runAfter c r stream now 0).requestsStarted = c ∧
    (runAfter c r stream now k).requestsStarted ≤ r ∧
    ∀ bm : benchmarkStats, ∀ m : measurement,
      (mainLoopStep r bm m).requestsStarted =
        if bm.requestsStarted < r then bm.requestsStarted + 1 else bm.requestsStarted := by
  have hstart : (startPhase c (NewBenchmarkStats r c now)).requestsStarted = c := by
    unfold startPhase
    rw [foldl_measureUrl_requestsStarted]
    simp [NewBenchmarkStats]
  refine ⟨hstart, ?_, fun bm m => mainLoopStep_requestsStarted r bm m⟩
  unfold runAfter
  exact foldl_mainLoopStep_requestsStarted_le r _ _ (by rw [hstart]; exact h)

/-- C1 witness: concurrency 2, budget 3, after all 3 loop iterations. -/
theorem dispatcher_budget_witness :
    (runAfter 2 3 (fun _ => ⟨0, 200, 0⟩) 0 0).requestsStarted = 2 ∧
    (runAfter 2 3 (fun _ => ⟨0, 200, 0⟩) 0 3).requestsStarted ≤ 3 ∧
    ∀ bm : benchmarkStats, ∀ m : measurement,
      (mainLoopStep 3 bm m).requestsStarted =
        if bm.requestsStarted < 3 then bm.requestsStarted + 1 else bm.requestsStarted :=
  dispatcher_budget 2 3 0 3 (fun _ => ⟨0, 200, 0⟩) (by decide)

/-- C2, counterexample: for a response with one header whose name is one
byte and whose single value is five bytes, `retrieveUrl` reports a size of
2 (name length plus NUMBER of values), while the claim's "combined length
of its name and its value(s)" reading gives 6. -/
theorem retrieveUrl_headerBytes_counterexample :
    retrieveUrl (some ⟨200, [([120], [[104, 101, 108, 108, 111]])], some []⟩) = (200, 2) ∧
    headerBytesSpec [([120], [[104, 101, 108, 108, 111]])] = 6 ∧
    (2 : Nat) ≠ 6 := by
  decide

/-- C2, amended: `retrieveUrl` never propagates an error: on total fetch
failure it returns `(500, 0)`; otherwise it returns the actual status code
together with `headerSize` — the sum over headers of name length plus the
NUMBER of values — plus the body length when the body was readable. -/
theorem retrieveUrl_contract (resp : httpResponse) :
    retrieveUrl none = (500, 0) ∧
    retrieveUrl (some resp)
      = (resp.statusCode, headerSize resp.headers + (resp.bodyRead.getD []).length) := by
  refine ⟨rfl, ?_⟩
  obtain ⟨st, hs, body⟩ := resp
  cases body <;> simp [retrieveUrl]

/-- C3: the median sorts a copy of the latencies ascending (the sorted copy
is an ordered permutation of the stored sequence) and returns the element at
index `length / 2`, which is an element of the latencies; on the even-length
input 10ms, 20ms, 30ms, 40ms it returns 30ms. -/
theorem medianRequestDuration_sorted_index (bm : benchmarkStats) (h : bm.durations ≠ []) :
    List.Sorted (fun a b => a ≤ b) (List.insertionSort (fun a b => a ≤ b) bm.durations) ∧
    (List.insertionSort (fun a b => a ≤ b) bm.durations).Perm bm.durations ∧
    medianRequestDuration bm
      = (List.insertionSort (fun a b => a ≤ b) bm.durations)[bm.durations.length / 2]? ∧
    (∃ m, medianRequestDuration bm = some m ∧ m ∈ bm.durations) ∧
    medianRequestDuration (statsWith [10000000, 20000000, 30000000, 40000000])
      = some 30000000 := by
  have hperm := List.perm_insertionSort (fun a b => a ≤ b) bm.durations
  have hlen : 0 < bm.durations.length := List.length_pos.2 h
  have hidx : bm.durations.length / 2
      < (List.insertionSort (fun a b => a ≤ b) bm.durations).length := by
    rw [List.length_insertionSort]
    exact Nat.div_lt_self hlen (by omega)
  refine ⟨List.sorted_insertionSort _ _, hperm, rfl, ?_, by decide⟩
  refine ⟨(List.insertionSort (fun a b => a ≤ b) bm.durations)[bm.durations.length / 2], ?_, ?_⟩
  · unfold medianRequestDuration
    exact List.getElem?_eq_getElem hidx
  · exact hperm.mem_iff.1 (List.getElem_mem hidx)

/-- C3 witness: instantiated at the latency list 10ms, 20ms, 30ms, 40ms. -/
theorem medianRequestDuration_sorted_index_witness :
    List.Sorted (fun a b => a ≤ b) (List.insertionSort (fun a b => a ≤ b)
      (statsWith [10000000, 20000000, 30000000, 40000000]).durations) ∧
    (List.insertionSort (fun a b => a ≤ b)
      (statsWith [10000000, 20000000, 30000000, 40000000]).durations).Perm
      (statsWith [10000000, 20000000, 30000000, 40000000]).durations ∧
    medianRequestDuration (statsWith [10000000, 20000000, 30000000, 40000000])
      = (List.insertionSort (fun a b => a ≤ b)
          (statsWith [10000000, 20000000, 30000000, 40000000]).durations)[
            (statsWith [10000000, 20000000, 30000000, 40000000]).durations.length / 2]? ∧
    (∃ m, medianRequestDuration (statsWith [10000000, 20000000, 30000000, 40000000]) = some m ∧
      m ∈ (statsWith [10000000, 20000000, 30000000, 40000000]).durations) ∧
    medianRequestDuration (statsWith [10000000, 20000000, 30000000, 40000000])
      = some 30000000 :=
  medianRequestDuration_sorted_index (statsWith [10000000, 20000000, 30000000, 40000000])
    (by decide)

/-- C4: for non-empty latencies, the average is the exact integer floor
division of the nanosecond total by the count. -/
theorem averageRequestDuration_floor_div (bm : benchmarkStats) (h : bm.durations ≠ []) :
    averageRequestDuration bm = ((totalTime bm / bm.durations.length : ℕ) : ℤ) :=
  averageRequestDuration_eq_div bm

/-- C4 witness: latencies 3ns and 4ns give average ⌊7/2⌋ = 3. -/
theorem averageRequestDuration_floor_div_witness :
    averageRequestDuration (statsWith [3, 4])
      = ((totalTime (statsWith [3, 4]) / (statsWith [3, 4]).durations.length : ℕ) : ℤ) :=
  averageRequestDuration_floor_div (statsWith [3, 4]) (by decide)

/-- C5: for non-empty latencies, the standard deviation is the floor of the
square root of the population variance taken against the already-floored
integer average; five latencies of 100ms give standard deviation 0. -/
theorem standardDeviation_floor_sqrt (bm : benchmarkStats) (h : bm.durations ≠ []) :
    (standardDeviation bm : ℤ)
      = ⌊Real.sqrt (((sumDeltaSquared bm : ℤ) : ℝ) / (bm.durations.length : ℝ))⌋ ∧
    standardDeviation (statsWith
      [100000000, 100000000, 100000000, 100000000, 100000000]) = 0 := by
  constructor
  · have hS : (((sumDeltaSquared bm).toNat : ℕ) : ℝ) = ((sumDeltaSquared bm : ℤ) : ℝ) := by
      exact_mod_cast congrArg (fun z : ℤ => (z : ℝ))
        (Int.toNat_of_nonneg (sumDeltaSquared_nonneg bm))
    rw [← hS, int_floor_real_sqrt_div]
    rfl
  · have havg : averageRequestDuration (statsWith
        [100000000, 100000000, 100000000, 100000000, 100000000]) = 100000000 := by
      rw [averageRequestDuration_eq_div]
      norm_num [totalTime, statsWith]
    have hsum : sumDeltaSquared (statsWith
        [100000000, 100000000, 100000000, 100000000, 100000000]) = 0 := by
      simp only [sumDeltaSquared, havg]
      norm_num [statsWith]
    simp [standardDeviation, hsum]

/-- C5 witness: instantiated at five latencies of 100ms. -/
theorem standardDeviation_floor_sqrt_witness :
    (standardDeviation (statsWith
        [100000000, 100000000, 100000000, 100000000, 100000000]) : ℤ)
      = ⌊Real.sqrt (((sumDeltaSquared (statsWith
            [100000000, 100000000, 100000000, 100000000, 100000000]) : ℤ) : ℝ)
          / ((statsWith
            [100000000, 100000000, 100000000, 100000000, 100000000]).durations.length : ℝ))⌋ ∧
    standardDeviation (statsWith
      [100000000, 100000000, 100000000, 100000000, 100000000]) = 0 :=
  standardDeviation_floor_sqrt
    (statsWith [100000000, 100000000, 100000000, 100000000, 100000000]) (by decide)

/-- C6: `recordResult` classifies solely by status code — a 2xx measurement
increments the success count and appends its duration, any other increments
the failure count; the reply size is always added to the transferred bytes.
Scenario E: one 200/500-byte and one 404/120-byte measurement give 620
transferred bytes, one success, one failure, and only the 200's duration. -/
theorem recordResult_classifies (bm : benchmarkStats) (m : measurement) :
    (recordResult bm m).transferredBytes = bm.transferredBytes + m.httpReplySize ∧
    (recordResult bm m).successfulRequests =
      (if 200 ≤ m.httpStatusCode ∧ m.httpStatusCode ≤ 299
        then bm.successfulRequests + 1 else bm.successfulRequests) ∧
    (recordResult bm m).failedRequests =
      (if 200 ≤ m.httpStatusCode ∧ m.httpStatusCode ≤ 299
        then bm.failedRequests else bm.failedRequests + 1) ∧
    (recordResult bm m).durations =
      (if 200 ≤ m.httpStatusCode ∧ m.httpStatusCode ≤ 299
        then bm.durations ++ [m.duration] else bm.durations) ∧
    (recordResult (recordResult (NewBenchmarkStats 300 5 0) ⟨500, 200, 7⟩)
      ⟨120, 404, 9⟩).transferredBytes = 620 ∧
    (recordResult (recordResult (NewBenchmarkStats 300 5 0) ⟨500, 200, 7⟩)
      ⟨120, 404, 9⟩).successfulRequests = 1 ∧
    (recordResult (recordResult (NewBenchmarkStats 300 5 0) ⟨500, 200, 7⟩)
      ⟨120, 404, 9⟩).failedRequests = 1 ∧
    (recordResult (recordResult (NewBenchmarkStats 300 5 0) ⟨500, 200, 7⟩)
      ⟨120, 404, 9⟩).durations = [7] := by
  refine ⟨?_, ?_, ?_, ?_, by decide, by decide, by decide, by decide⟩ <;>
    (simp only [recordResult]; split <;> rfl)

/-- C7: after any sequence of recorded measurements the latency count equals
the success count and successes plus failures equal the number recorded; in
the run model this invariant holds at every loop iteration, and at run
completion successes plus failures equal the repetition budget. -/
theorem aggregator_count_invariants (ms : List measurement) (stream : Nat → measurement)
    (c r now endNow k : Nat) :
    (ms.foldl recordResult (NewBenchmarkStats r c now)).durations.length
      = (ms.foldl recordResult (NewBenchmarkStats r c now)).successfulRequests ∧
    (ms.foldl recordResult (NewBenchmarkStats r c now)).successfulRequests
      + (ms.foldl recordResult (NewBenchmarkStats r c now)).failedRequests = ms.length ∧
    (runAfter c r stream now k).durations.length
      = (runAfter c r stream now k).successfulRequests ∧
    (runMain c r stream now endNow).successfulRequests
      + (runMain c r stream now endNow).failedRequests = r := by
  have hinit : (NewBenchmarkStats r c now).durations.length = 0 ∧
      (NewBenchmarkStats r c now).successfulRequests = 0 ∧
      (NewBenchmarkStats r c now).failedRequests = 0 := ⟨rfl, rfl, rfl⟩
  obtain ⟨hframe1, hframe2, hframe3⟩ :=
    foldl_measureUrl_frame (List.range c) (NewBenchmarkStats r c now)
  refine ⟨?_, ?_, ?_, ?_⟩
  · have := foldl_recordResult_durations ms (NewBenchmarkStats r c now)
    omega
  · have := foldl_recordResult_counts ms (NewBenchmarkStats r c now)
    omega
  · have := foldl_mainLoopStep_durations r ((List.range k).map stream)
      (startPhase c (NewBenchmarkStats r c now))
    unfold runAfter
    unfold startPhase at *
    rw [hframe3] at this
    omega
  · have hc := foldl_mainLoopStep_counts r ((List.range r).map stream)
      (startPhase c (NewBenchmarkStats r c now))
    have e1 : (runMain c r stream now endNow).successfulRequests
        = (runAfter c r stream now r).successfulRequests := rfl
    have e2 : (runMain c r stream now endNow).failedRequests
        = (runAfter c r stream now r).failedRequests := rfl
    rw [e1, e2]
    unfold runAfter
    unfold startPhase at *
    simp only [List.length_map, List.length_range] at hc
    omega

/-- C8: for a non-empty latency list every element access of the slowest,
fastest and median computations is in bounds (they return a value); on the
freshly constructed state with zero successes they all perform the
empty-sequence access and return `none`. -/
theorem stats_access_bounds (bm : benchmarkStats) (h : bm.durations ≠ []) :
    (slowestRequestDuration bm).isSome = true ∧
    (fastestRequestDuration bm).isSome = true ∧
    (medianRequestDuration bm).isSome = true ∧
    slowestRequestDuration (NewBenchmarkStats 300 5 0) = none ∧
    fastestRequestDuration (NewBenchmarkStats 300 5 0) = none ∧
    medianRequestDuration (NewBenchmarkStats 300 5 0) = none := by
  have hlen : 0 < bm.durations.length := List.length_pos.2 h
  have h0 : bm.durations[0]? = some bm.durations[0] := List.getElem?_eq_getElem hlen
  have hidx : bm.durations.length / 2
      < (List.insertionSort (fun a b => a ≤ b) bm.durations).length := by
    rw [List.length_insertionSort]
    exact Nat.div_lt_self hlen (by omega)
  refine ⟨?_, ?_, ?_, rfl, rfl, rfl⟩
  · simp [slowestRequestDuration, h0]
  · simp [fastestRequestDuration, h0]
  · simp [medianRequestDuration, List.getElem?_eq_getElem hidx]

/-- C8 witness: instantiated at a one-element latency list. -/
theorem stats_access_bounds_witness :
    (slowestRequestDuration (statsWith [5])).isSome = true ∧
    (fastestRequestDuration (statsWith [5])).isSome = true ∧
    (medianRequestDuration (statsWith [5])).isSome = true ∧
    slowestRequestDuration (NewBenchmarkStats 300 5 0) = none ∧
    fastestRequestDuration (NewBenchmarkStats 300 5 0) = none ∧
    medianRequestDuration (NewBenchmarkStats 300 5 0) = none :=
  stats_access_bounds (statsWith [5]) (by decide)

/-- C9: the derived statistics are idempotent and read-only — calling
median, average or standard deviation twice without recording new
measurements yields the same result, and each call leaves the stored
latency sequence unchanged. -/
theorem stats_idempotent_readonly (bm : benchmarkStats) (h : bm.durations ≠ []) :
    (medianRequestDurationCall ((medianRequestDurationCall bm).2)).1
      = (medianRequestDurationCall bm).1 ∧
    (averageRequestDurationCall ((averageRequestDurationCall bm).2)).1
      = (averageRequestDurationCall bm).1 ∧
    (standardDeviationCall ((standardDeviationCall bm).2)).1
      = (standardDeviationCall bm).1 ∧
    (medianRequestDurationCall bm).2.durations = bm.durations ∧
    (averageRequestDurationCall bm).2.durations = bm.durations ∧
    (standardDeviationCall bm).2.durations = bm.durations :=
  ⟨rfl, rfl, rfl, rfl, rfl, rfl⟩

/-- C9 witness: instantiated at the latency list 10ms, 20ms, 30ms, 40ms. -/
theorem stats_idempotent_readonly_witness :
    (medianRequestDurationCall ((medianRequestDurationCall
        (statsWith [10000000, 20000000, 30000000, 40000000])).2)).1
      = (medianRequestDurationCall (statsWith [10000000, 20000000, 30000000, 40000000])).1 ∧
    (averageRequestDurationCall ((averageRequestDurationCall
        (statsWith [10000000, 20000000, 30000000, 40000000])).2)).1
      = (averageRequestDurationCall (statsWith [10000000, 20000000, 30000000, 40000000])).1 ∧
    (standardDeviationCall ((standardDeviationCall
        (statsWith [10000000, 20000000, 30000000, 40000000])).2)).1
      = (standardDeviationCall (statsWith [10000000, 20000000, 30000000, 40000000])).1 ∧
    (medianRequestDurationCall (statsWith [10000000, 20000000, 30000000, 40000000])).2.durations
      = (statsWith [10000000, 20000000, 30000000, 40000000]).durations ∧
    (averageRequestDurationCall (statsWith [10000000, 20000000, 30000000, 40000000])).2.durations
      = (statsWith [10000000, 20000000, 30000000, 40000000]).durations ∧
    (standardDeviationCall (statsWith [10000000, 20000000, 30000000, 40000000])).2.durations
      = (statsWith [10000000, 20000000, 30000000, 40000000]).durations :=
  stats_idempotent_readonly (statsWith [10000000, 20000000, 30000000, 40000000]) (by decide)

/-- C10: for a measurement with status outside 200..299, `recordResult`
changes only the failure count and the transferred bytes — success count,
durations, `requestsStarted` and both timestamps are untouched; for a 2xx
measurement the failure count (and the same frame fields) are untouched. -/
theorem recordResult_frame (bm : benchmarkStats) (m1 m2 : measurement)
    (h1 : ¬ (200 ≤ m1.httpStatusCode ∧ m1.httpStatusCode ≤ 299))
    (h2 : 200 ≤ m2.httpStatusCode ∧ m2.httpStatusCode ≤ 299) :
    (recordResult bm m1).successfulRequests = bm.successfulRequests ∧
    (recordResult bm m1).durations = bm.durations ∧
    (recordResult bm m1).requestsStarted = bm.requestsStarted ∧
    (recordResult bm m1).startedAt = bm.startedAt ∧
    (recordResult bm m1).endedAt = bm.endedAt ∧
    (recordResult bm m1).failedRequests = bm.failedRequests + 1 ∧
    (recordResult bm m1).transferredBytes = bm.transferredBytes + m1.httpReplySize ∧
    (recordResult bm m2).failedRequests = bm.failedRequests ∧
    (recordResult bm m2).requestsStarted = bm.requestsStarted ∧
    (recordResult bm m2).startedAt = bm.startedAt ∧
    (recordResult bm m2).endedAt = bm.endedAt := by
  simp [recordResult, if_neg h1, if_pos h2]

/-- C10 witness: a 404 measurement and a 200 measurement on a sample state. -/
theorem recordResult_frame_witness :
    (recordResult (statsWith [3]) ⟨120, 404, 9⟩).successfulRequests
      = (statsWith [3]).successfulRequests ∧
    (recordResult (statsWith [3]) ⟨120, 404, 9⟩).durations = (statsWith [3]).durations ∧
    (recordResult (statsWith [3]) ⟨120, 404, 9⟩).requestsStarted
      = (statsWith [3]).requestsStarted ∧
    (recordResult (statsWith [3]) ⟨120, 404, 9⟩).startedAt = (statsWith [3]).startedAt ∧
    (recordResult (statsWith [3]) ⟨120, 404, 9⟩).endedAt = (statsWith [3]).endedAt ∧
    (recordResult (statsWith [3]) ⟨120, 404, 9⟩).failedRequests
      = (statsWith [3]).failedRequests + 1 ∧
    (recordResult (statsWith [3]) ⟨120, 404, 9⟩).transferredBytes
      = (statsWith [3]).transferredBytes + (⟨120, 404, 9⟩ : measurement).httpReplySize ∧
    (recordResult (statsWith [3]) ⟨500, 200, 7⟩).failedRequests
      = (statsWith [3]).failedRequests ∧
    (recordResult (statsWith [3]) ⟨500, 200, 7⟩).requestsStarted
      = (statsWith [3]).requestsStarted ∧
    (recordResult (statsWith [3]) ⟨500, 200, 7⟩).startedAt = (statsWith [3]).startedAt ∧
    (recordResult (statsWith [3]) ⟨500, 200, 7⟩).endedAt = (statsWith [3]).endedAt :=
  recordResult_frame (statsWith [3]) ⟨120, 404, 9⟩ ⟨500, 200, 7⟩ (by decide) (by decide)

end Girya
